import Mathlib

/-!
Shallow embedding of the Blazor root-component discovery subsystem:
the marker scanner (`ComponentDescriptorDiscovery.ts`), the component
descriptors and their merge rules, the circuit descriptor state machine
(`CircuitManager.ts`), and the boot orchestrator (`Web.ts`).

Modelling conventions:
* DOM nodes are a tree (`DNode`); a comment's text is abstracted to the
  syntactic category the scanner's two regular expressions distinguish
  (`CommentContent`): a `Blazor:{...}` marker with its parsed JSON payload,
  a `Blazor-Component-State:` comment with its raw captured text, or any
  other comment.  The two prefixes differ at their seventh character, so no
  comment text can be in both categories.
* JSON payloads of marker comments are a record of the keys the scanner
  reads (`CommentPayload`), each optional, plus a count of unrelated keys
  (`otherKeys`) so that the end-marker validation's `Object.keys(payload)`
  test is representable.  JSON numbers are modelled as integers; the
  source's `Number.isInteger(sequence)` test therefore always passes and
  its error branch is not modelled.
* JavaScript truthiness on optional strings (`if (value)`) is
  `jsTruthyStr`: `undefined`/`null` and the empty string are falsy.
* Thrown errors become `Except` values with an inductive error type whose
  constructors correspond one-to-one to the `throw new Error(...)` sites.
* Mutation is explicit state passing: `merge` returns the updated
  descriptor, the static `WebAssemblyComponentDescriptor.globalId` counter
  and the module-level boot flags of `Web.ts` are threaded through.
-/

/-- JavaScript truthiness of a possibly-absent string: `undefined` (here
`none`) and the empty string are falsy. -/
def jsTruthyStr : Option String → Bool
  | none => false
  | some s => s ≠ ""

/-- Parsed JSON payload of a `<!--Blazor:{...}-->` marker comment: the keys
the scanner reads, each optional, plus the number of any other keys the
JSON object carries (needed only by `validateEndComponentPayload`, which
counts `Object.keys(payload)`). -/
structure CommentPayload where
  type : Option String := none
  sequence : Option Int := none
  descriptor : Option String := none
  assembly : Option String := none
  typeName : Option String := none
  parameterDefinitions : Option String := none
  parameterValues : Option String := none
  prerenderId : Option String := none
  otherKeys : Nat := 0
deriving DecidableEq, Repr

/-- Number of keys of the underlying JSON object, as `Object.keys(payload).length`
would report it. -/
def CommentPayload.numKeys (p : CommentPayload) : Nat :=
  (if p.type.isSome then 1 else 0) +
  (if p.sequence.isSome then 1 else 0) +
  (if p.descriptor.isSome then 1 else 0) +
  (if p.assembly.isSome then 1 else 0) +
  (if p.typeName.isSome then 1 else 0) +
  (if p.parameterDefinitions.isSome then 1 else 0) +
  (if p.parameterValues.isSome then 1 else 0) +
  (if p.prerenderId.isSome then 1 else 0) +
  p.otherKeys

/-- Text content of a comment node, abstracted to what the scanner's two
regular expressions distinguish.
* `marker payload`: text matching `^\s*Blazor:[^{]*(?<descriptor>.*)$` with a
  nonempty JSON object that parses to `payload`.
* `state s`: text matching `Blazor-Component-State:` followed by the raw
  captured remainder `s` (the regular expression's alphabet check on `s` is
  applied by `blazorStateCommentMatch`).
* `other`: any other comment text.
The two prefixes are incompatible, so the cases are mutually exclusive. -/
inductive CommentContent where
  | marker (payload : CommentPayload)
  | state (payload : String)
  | other
deriving DecidableEq, Repr

/-- DOM node: a comment, a text node, or an element with its child list.
(The `Document` node of `assertNotDirectlyOnDocument` is not modelled: every
scanned subtree here hangs below the document.) -/
inductive DNode where
  | comment (content : CommentContent)
  | text
  | element (children : List DNode)
deriving Repr

mutual

def DNode.deq : (a b : DNode) → Decidable (a = b)
  | .comment c, .comment c' =>
      match decEq c c' with
      | isTrue h => isTrue (by rw [h])
      | isFalse h => isFalse (by simp [h])
  | .comment _, .text => isFalse (by simp)
  | .comment _, .element _ => isFalse (by simp)
  | .text, .comment _ => isFalse (by simp)
  | .text, .text => isTrue rfl
  | .text, .element _ => isFalse (by simp)
  | .element _, .comment _ => isFalse (by simp)
  | .element _, .text => isFalse (by simp)
  | .element cs, .element cs' =>
      match DNode.deqList cs cs' with
      | isTrue h => isTrue (by rw [h])
      | isFalse h => isFalse (by simp [h])

def DNode.deqList : (a b : List DNode) → Decidable (a = b)
  | [], [] => isTrue rfl
  | [], _ :: _ => isFalse (by simp)
  | _ :: _, [] => isFalse (by simp)
  | a :: as, b :: bs =>
      match DNode.deq a b, DNode.deqList as bs with
      | isTrue h1, isTrue h2 => isTrue (by rw [h1, h2])
      | isFalse h1, _ => isFalse (by simp [h1])
      | _, isFalse h2 => isFalse (by simp [h2])

end

instance : DecidableEq DNode := DNode.deq

deriving instance DecidableEq for Except

/-- Child list of a node (`node.childNodes`): only elements have children. -/
def DNode.childNodes : DNode → List DNode
  | .element children => children
  | _ => []

/-- `node.hasChildNodes()`. -/
def DNode.hasChildNodes (n : DNode) : Bool :=
  ¬ (DNode.childNodes n).isEmpty

/-- Character class `[a-zA-Z0-9+/=]` of the persisted-state regular
expression. -/
def base64StateChar (c : Char) : Bool :=
  c.isAlphanum || c = '+' || c = '/' || c = '='

/-- Match of `blazorStateCommentRegularExpression`
(`^\s*Blazor-Component-State:(?<state>[a-zA-Z0-9+/=]+)$`) against a
comment's text: the captured group, when the whole remainder after the
prefix is a nonempty run of the restricted alphabet. -/
def blazorStateCommentMatch : CommentContent → Option String
  | .state s => if s ≠ "" && s.data.all base64StateChar then some s else none
  | _ => none

mutual

/-- Source `discoverPersistedState` (ComponentDescriptorDiscovery.ts,
lines 42-67).  Returns the state value the source returns (`none` for both
`null` and `undefined`) together with the node as it stands after the call:
`none` in the second component means the node removed itself from its
parent (`node.parentNode?.removeChild(node)`). -/
def discoverPersistedState : DNode → Option String × Option DNode
  | .comment content =>
      let value := blazorStateCommentMatch content
      if jsTruthyStr value then (value, none) else (value, some (.comment content))
  | .text => (none, some .text)
  | .element children =>
      if children.isEmpty then (none, some (.element children))
      else
        let (result, children') := discoverPersistedStateList children
        (result, some (.element children'))

/-- Loop of `discoverPersistedState` over `node.childNodes`: first truthy
result wins and the scan stops; a falsy result keeps scanning.  The updated
child is kept in the list (a removed child disappears). -/
def discoverPersistedStateList : List DNode → Option String × List DNode
  | [] => (none, [])
  | candidate :: rest =>
      let (result, candidate') := discoverPersistedState candidate
      if jsTruthyStr result then
        (result, match candidate' with
          | none => rest
          | some c => c :: rest)
      else
        let (result2, rest') := discoverPersistedStateList rest
        (result2, match candidate' with
          | none => rest'
          | some c => c :: rest')

end

mutual

/-- Specification-side view: the captured payloads of every persisted-state
comment in the tree, in depth-first (document) order. -/
def statePayloads : DNode → List String
  | .comment content =>
      match blazorStateCommentMatch content with
      | some v => [v]
      | none => []
  | .text => []
  | .element children => statePayloadsList children

def statePayloadsList : List DNode → List String
  | [] => []
  | c :: rest => statePayloads c ++ statePayloadsList rest

end

mutual

/-- Specification-side view: the tree with its first (depth-first)
persisted-state comment removed; `none` means the node itself was that
comment.  A tree without a match is returned unchanged. -/
def removeFirstState : DNode → Option DNode
  | .comment content =>
      if (blazorStateCommentMatch content).isSome then none
      else some (.comment content)
  | .text => some .text
  | .element children => some (.element (removeFirstStateList children))

def removeFirstStateList : List DNode → List DNode
  | [] => []
  | c :: rest =>
      if statePayloads c ≠ [] then
        match removeFirstState c with
        | none => rest
        | some c' => c' :: rest
      else
        c :: removeFirstStateList rest

end

/-- Kind argument of `discoverComponents`: the TypeScript union
`'webassembly' | 'server'`. -/
inductive MarkerType where
  | server
  | webassembly
deriving DecidableEq, Repr

/-- Errors thrown during marker scanning; each constructor corresponds to
one `throw new Error(...)` site of ComponentDescriptorDiscovery.ts.
* `malformedComment`: the catch-all of `getComponentComment` ("Found
  malformed component comment at ..."), which replaces any error thrown
  while parsing or building a marker's descriptor record.
* `invalidComponentType`: `parseCommentPayload`.
* `unterminatedMarker`: "Could not find an end component comment for ...".
* `invalidEndComment`, `endCommentMissingPrerenderId`,
  `endCommentPrerenderIdMismatch`: the three throws of
  `validateEndComponentPayload`.
* `missingDescriptor`, `missingSequence`, `missingAssembly`,
  `missingTypeName`: the required-field throws of the two create functions.
* `fuelExhausted`: not a source error — recursion fuel of the embedding's
  `resolveComponentCommentsAux`, unreachable for the initial fuel chosen by
  `resolveComponentComments` (see `resolveComponentComments_fuel_sufficient`). -/
inductive DiscoveryError where
  | malformedComment
  | invalidComponentType (type : Option String)
  | unterminatedMarker
  | invalidEndComment
  | endCommentMissingPrerenderId
  | endCommentPrerenderIdMismatch (startId endId : String)
  | missingDescriptor
  | missingSequence
  | missingAssembly
  | missingTypeName
  | fuelExhausted
deriving DecidableEq, Repr

/-- Source `validateEndComponentPayload` (lines 282-294): an end marker's
payload must be exactly one key, a truthy `prerenderId`, equal to the start
marker's id. -/
def validateEndComponentPayload (payload : CommentPayload) (prerenderedId : String) :
    Except DiscoveryError Unit :=
  if payload.numKeys ≠ 1 then
    .error .invalidEndComment
  else
    match payload.prerenderId with
    | none => .error .endCommentMissingPrerenderId
    | some prerenderedEndId =>
        if prerenderedEndId = "" then
          .error .endCommentMissingPrerenderId
        else if prerenderedEndId ≠ prerenderedId then
          .error (.endCommentPrerenderIdMismatch prerenderedId prerenderedEndId)
        else
          .ok ()

/-- Source `getComponentEndComment` (lines 258-280): walk the remaining
siblings; skip every node that is not a `Blazor:` marker comment; the first
marker comment found is validated against the start marker's id and
returned together with the siblings after it.  An exhausted sibling list
yields `none`. -/
def getComponentEndComment (prerenderedId : String) :
    List DNode → Except DiscoveryError (Option DNode × List DNode)
  | [] => .ok (none, [])
  | node :: rest =>
      match node with
      | .comment (.marker payload) =>
          match validateEndComponentPayload payload prerenderedId with
          | .error e => .error e
          | .ok _ => .ok (some node, rest)
      | _ => getComponentEndComment prerenderedId rest

/-- Source `parseCommentPayload` (lines 166-174): the payload must declare
`type` as `server` or `webassembly`.  (`JSON.parse` itself cannot fail in
the embedding: a `marker` content carries an already parsed payload.) -/
def parseCommentPayload (payload : CommentPayload) : Except DiscoveryError CommentPayload :=
  if payload.type ≠ some "server" ∧ payload.type ≠ some "webassembly" then
    .error (.invalidComponentType payload.type)
  else
    .ok payload

/-- Result of the browser's `atob` on a base64 string, abstracted to an
injective wrapper of the encoded text (the decoding itself is a browser
builtin, not code of this repository, and no claim inspects the decoded
bytes). -/
structure DecodedB64 where
  raw : String
deriving DecidableEq, Repr

/-- Browser `atob`, abstracted (see `DecodedB64`). -/
def atob (s : String) : DecodedB64 := ⟨s⟩

/-- Source interface `ServerComponentComment` (lines 95-102) as
`createServerComponentComment` returns it.  The source's `end` field is
named `endComment` (`end` is reserved in Lean). -/
structure ServerComponentComment where
  sequence : Int
  descriptor : String
  start : DNode
  prerenderId : Option String
  endComment : Option DNode
deriving DecidableEq, Repr

/-- Source interface `WebAssemblyComponentComment` (lines 104-113) as
`createWebAssemblyComponentComment` returns it, parameter blobs decoded. -/
structure WebAssemblyComponentComment where
  typeName : String
  assembly : String
  parameterDefinitions : Option DecodedB64
  parameterValues : Option DecodedB64
  prerenderId : Option String
  start : DNode
  endComment : Option DNode
deriving DecidableEq, Repr

/-- A resolved component comment of either kind (the source's
`ComponentComment` as it leaves `getComponentComment`). -/
inductive ComponentCommentResult where
  | server (c : ServerComponentComment)
  | webassembly (c : WebAssemblyComponentComment)
deriving DecidableEq, Repr

/-- Validation part of `createServerComponentComment` (source lines
189-216), after the end-marker search resolved `endComment` and left the
iterator at `rest'`: the unterminated-marker check, the type dispatch, and
the required-field checks. -/
def createServerComponentCommentBody (payload : CommentPayload) (start : DNode)
    (endComment : Option DNode) (rest' : List DNode) :
    Except DiscoveryError (Option ComponentCommentResult × List DNode) :=
  if jsTruthyStr payload.prerenderId ∧ endComment = none then
    .error .unterminatedMarker
  else if payload.type ≠ some "server" then
    .ok (none, rest')
  else if ¬ jsTruthyStr payload.descriptor then
    .error .missingDescriptor
  else
    match payload.sequence with
    | none => .error .missingSequence
    | some sequence =>
        -- The source's `Number.isInteger(sequence)` check always passes:
        -- JSON numbers are modelled as integers.
        .ok (some (.server {
          sequence := sequence,
          descriptor := payload.descriptor.getD "",
          start := start,
          prerenderId := payload.prerenderId,
          endComment := endComment }), rest')

/-- Source `createServerComponentComment` (lines 182-217).  The shared
iterator is the sibling list `rest`; the function returns the built comment
(or `none` when the payload's type is not `server`) together with the
siblings still to scan — the end-marker search consumes siblings even for a
type the caller is not looking for, and an error it throws propagates. -/
def createServerComponentComment (payload : CommentPayload) (start : DNode)
    (rest : List DNode) :
    Except DiscoveryError (Option ComponentCommentResult × List DNode) :=
  if jsTruthyStr payload.prerenderId then
    match getComponentEndComment (payload.prerenderId.getD "") rest with
    | .error e => .error e
    | .ok (endComment, rest') =>
        createServerComponentCommentBody payload start endComment rest'
  else
    createServerComponentCommentBody payload start none rest

/-- Validation part of `createWebAssemblyComponentComment` (source lines
226-255), after the end-marker search: same shape as the server variant;
parameter blobs are decoded with `atob`. -/
def createWebAssemblyComponentCommentBody (payload : CommentPayload) (start : DNode)
    (endComment : Option DNode) (rest' : List DNode) :
    Except DiscoveryError (Option ComponentCommentResult × List DNode) :=
  if jsTruthyStr payload.prerenderId ∧ endComment = none then
    .error .unterminatedMarker
  else if payload.type ≠ some "webassembly" then
    .ok (none, rest')
  else if ¬ jsTruthyStr payload.assembly then
    .error .missingAssembly
  else if ¬ jsTruthyStr payload.typeName then
    .error .missingTypeName
  else
    .ok (some (.webassembly {
      typeName := payload.typeName.getD "",
      assembly := payload.assembly.getD "",
      parameterDefinitions := payload.parameterDefinitions.map atob,
      parameterValues := payload.parameterValues.map atob,
      prerenderId := payload.prerenderId,
      start := start,
      endComment := endComment }), rest')

/-- Source `createWebAssemblyComponentComment` (lines 219-256): the
end-marker search, then the validation body. -/
def createWebAssemblyComponentComment (payload : CommentPayload) (start : DNode)
    (rest : List DNode) :
    Except DiscoveryError (Option ComponentCommentResult × List DNode) :=
  if jsTruthyStr payload.prerenderId then
    match getComponentEndComment (payload.prerenderId.getD "") rest with
    | .error e => .error e
    | .ok (endComment, rest') =>
        createWebAssemblyComponentCommentBody payload start endComment rest'
  else
    createWebAssemblyComponentCommentBody payload start none rest

/-- Source `getComponentComment` (lines 137-164): a non-comment node, a
comment without the `Blazor:` prefix, or one with an empty descriptor group
yields no marker and leaves the sibling list untouched; a marker comment is
parsed and dispatched on the requested kind, and any error thrown inside the
`try` block is replaced by the malformed-comment error. -/
def getComponentComment (type : MarkerType) (candidateStart : DNode)
    (rest : List DNode) :
    Except DiscoveryError (Option ComponentCommentResult × List DNode) :=
  match candidateStart with
  | .comment (.marker payload) =>
      let inner : Except DiscoveryError (Option ComponentCommentResult × List DNode) := do
        let componentComment ← parseCommentPayload payload
        match type with
        | .webassembly => createWebAssemblyComponentComment componentComment candidateStart rest
        | .server => createServerComponentComment componentComment candidateStart rest
      match inner with
      | .ok r => .ok r
      | .error _ => .error .malformedComment
  | _ => .ok (none, rest)

/-- A node the end-marker scan of `getComponentEndComment` does not skip:
a comment whose text is a `Blazor:` marker. -/
def isMarkerComment : DNode → Bool
  | .comment (.marker _) => true
  | _ => false

mutual

/-- Size of a DOM tree, the fuel bound of `resolveComponentComments`. -/
def DNode.nodeSize : DNode → Nat
  | .comment _ => 1
  | .text => 1
  | .element children => 1 + DNode.listSize children

/-- Size of a DOM forest. -/
def DNode.listSize : List DNode → Nat
  | [] => 1
  | n :: rest => 1 + DNode.nodeSize n + DNode.listSize rest

end

/-- Source `resolveComponentComments` (lines 115-133), fuel-indexed.  The
loop over the shared iterator: a resolved marker is collected and scanning
resumes after any consumed end marker; otherwise, unless restricted to
direct children, the walk recurses into the current node's children.  (The
source checks `childNodeIterator.currentElement.hasChildNodes()`; whenever
the end-marker search moved the iterator, both the original node and the
new current element are comments, hence childless, so testing the original
node is equivalent.)  Each recursive call strictly decreases the total tree
size, so the fuel chosen by `resolveComponentComments` is never exhausted. -/
def resolveComponentCommentsAux (type : MarkerType) (directChildrenOnly : Bool) :
    Nat → List DNode → Except DiscoveryError (List ComponentCommentResult)
  | 0, _ => .error .fuelExhausted
  | Nat.succ _, [] => .ok []
  | Nat.succ fuel, node :: rest => do
      let (componentComment, rest') ← getComponentComment type node rest
      match componentComment with
      | some c => do
          let tail ← resolveComponentCommentsAux type directChildrenOnly fuel rest'
          .ok (c :: tail)
      | none =>
          if ¬ directChildrenOnly ∧ DNode.hasChildNodes node then do
            let childResults ← resolveComponentCommentsAux type false fuel (DNode.childNodes node)
            let tail ← resolveComponentCommentsAux type directChildrenOnly fuel rest'
            .ok (childResults ++ tail)
          else
            resolveComponentCommentsAux type directChildrenOnly fuel rest'

/-- Source `resolveComponentComments`, with sufficient fuel
(`DNode.listSize` of the node list bounds the depth of the recursion). -/
def resolveComponentComments (nodes : List DNode) (type : MarkerType)
    (directChildrenOnly : Bool) : Except DiscoveryError (List ComponentCommentResult) :=
  resolveComponentCommentsAux type directChildrenOnly (DNode.listSize nodes) nodes

/-- Insertion of an element into a list sorted by an integer key, as the
comparator `(a, b) => key(a) - key(b)` of `Array.prototype.sort` orders it. -/
def insertByKey {α : Type} (key : α → Int) (a : α) : List α → List α
  | [] => [a]
  | b :: l => if key a ≤ key b then a :: b :: l else b :: insertByKey key a l

/-- Sorting by an integer key: the embedding of
`.sort((a, b) => key(a) - key(b))`. -/
def sortByKey {α : Type} (key : α → Int) : List α → List α
  | [] => []
  | a :: l => insertByKey key a (sortByKey key l)

/-- A list is sorted (non-decreasing) by an integer key. -/
def sortedByKey {α : Type} (key : α → Int) : List α → Bool
  | [] => true
  | [_] => true
  | a :: b :: l => key a ≤ key b && sortedByKey key (b :: l)

/-- Errors of the two `merge` methods; each constructor corresponds to one
`throw new Error('Cannot merge component descriptors ...')` site. -/
inductive MergeError where
  | differingTypes (thisType otherType : String)
  | differingTypeName (thisTypeName otherTypeName : String)
  | differingAssembly (thisAssembly otherAssembly : String)
deriving DecidableEq, Repr

/-- Source class `ServerComponentDescriptor` (lines 343-383).  The TypeScript
`type` field has literal type `'server'` and is always that string, so it is
not a field here; `end` is named `endComment`. -/
structure ServerComponentDescriptor where
  start : DNode
  endComment : Option DNode
  sequence : Int
  descriptor : String
deriving DecidableEq, Repr

/-- Source class `WebAssemblyComponentDescriptor` (lines 385-447); `type` is
always the literal `'webassembly'`, `end` is named `endComment`.  The field
`endComment` is public but never assigned anywhere in the source file: both
`this.end = end;` in the constructor and `this.end = other.end;` in `merge`
are commented out. -/
structure WebAssemblyComponentDescriptor where
  typeName : String
  assembly : String
  parameterDefinitions : Option DecodedB64
  parameterValues : Option DecodedB64
  id : Int
  start : DNode
  endComment : Option DNode
deriving DecidableEq, Repr

/-- Source union `ComponentDescriptor` (line 341). -/
inductive ComponentDescriptor where
  | server (d : ServerComponentDescriptor)
  | webassembly (d : WebAssemblyComponentDescriptor)
deriving DecidableEq, Repr

/-- Value of the `type` field of either variant. -/
def ComponentDescriptor.type : ComponentDescriptor → String
  | .server _ => "server"
  | .webassembly _ => "webassembly"

/-- Source `ServerComponentDescriptor.merge` (lines 366-374): differing
types fail; otherwise `end`, `sequence` and `descriptor` are taken from the
incoming descriptor, `start` is untouched. -/
def ServerComponentDescriptor.merge (self : ServerComponentDescriptor)
    (other : ComponentDescriptor) : Except MergeError ServerComponentDescriptor :=
  match other with
  | .webassembly _ => .error (.differingTypes "server" "webassembly")
  | .server o =>
      .ok { self with
        endComment := o.endComment,
        sequence := o.sequence,
        descriptor := o.descriptor }

/-- Source `WebAssemblyComponentDescriptor` constructor (lines 404-413),
with the static `globalId` counter passed in and returned incremented.  The
constructor receives an `end` argument but its assignment (`this.end = end;`)
is commented out in the source, so the new descriptor's `endComment` is
`none` whatever `endParam` is. -/
def WebAssemblyComponentDescriptor.create (globalId : Int) (start : DNode)
    (_endParam : Option DNode) (assembly : String) (typeName : String)
    (parameterDefinitions : Option DecodedB64) (parameterValues : Option DecodedB64) :
    WebAssemblyComponentDescriptor × Int :=
  ({ id := globalId,
     typeName := typeName,
     assembly := assembly,
     parameterDefinitions := parameterDefinitions,
     parameterValues := parameterValues,
     start := start,
     endComment := none }, globalId + 1)

/-- Source `WebAssemblyComponentDescriptor.merge` (lines 419-436): differing
types, `typeName` or `assembly` fail; otherwise the parameter blobs and `id`
are taken from the incoming descriptor.  `start` is untouched, and so is
`endComment`: the line `this.end = other.end;` is commented out in the
source. -/
def WebAssemblyComponentDescriptor.merge (self : WebAssemblyComponentDescriptor)
    (other : ComponentDescriptor) : Except MergeError WebAssemblyComponentDescriptor :=
  match other with
  | .server _ => .error (.differingTypes "webassembly" "server")
  | .webassembly o =>
      if self.typeName ≠ o.typeName then
        .error (.differingTypeName self.typeName o.typeName)
      else if self.assembly ≠ o.assembly then
        .error (.differingAssembly self.assembly o.assembly)
      else
        .ok { self with
          parameterDefinitions := o.parameterDefinitions,
          parameterValues := o.parameterValues,
          id := o.id }

/-- Loop body of `discoverServerComponents` (lines 24-35): each resolved
server comment becomes a descriptor via the class constructor.  (With the
requested kind `server`, `resolveComponentComments` only ever yields server
comments, so the TypeScript cast loses nothing.) -/
def serverDescriptorsFromComments (comments : List ComponentCommentResult) :
    List ServerComponentDescriptor :=
  comments.filterMap fun c =>
    match c with
    | .server componentComment =>
        some { start := componentComment.start,
               endComment := componentComment.endComment,
               sequence := componentComment.sequence,
               descriptor := componentComment.descriptor }
    | .webassembly _ => none

/-- Source `discoverServerComponents` (lines 21-38): resolve the comments,
build descriptors, and sort by `sequence`. -/
def discoverServerComponents (nodes : List DNode) (directChildrenOnly : Bool) :
    Except DiscoveryError (List ServerComponentDescriptor) := do
  let componentComments ← resolveComponentComments nodes .server directChildrenOnly
  let discoveredComponents := serverDescriptorsFromComments componentComments
  .ok (sortByKey (fun d => d.sequence) discoveredComponents)

/-- Loop body of `discoverWebAssemblyComponents` (lines 72-85): each
resolved webassembly comment becomes a descriptor via the class constructor,
which consumes one `globalId` per descriptor. -/
def webAssemblyDescriptorsFromComments :
    List ComponentCommentResult → Int → List WebAssemblyComponentDescriptor × Int
  | [], globalId => ([], globalId)
  | c :: rest, globalId =>
      match c with
      | .webassembly componentComment =>
          let (entry, globalId') := WebAssemblyComponentDescriptor.create globalId
            componentComment.start componentComment.endComment
            componentComment.assembly componentComment.typeName
            componentComment.parameterDefinitions componentComment.parameterValues
          let (tail, globalId'') := webAssemblyDescriptorsFromComments rest globalId'
          (entry :: tail, globalId'')
      | .server _ => webAssemblyDescriptorsFromComments rest globalId

/-- Source `discoverWebAssemblyComponents` (lines 69-88): resolve the
comments, build descriptors (threading the static id counter), and sort by
`id`. -/
def discoverWebAssemblyComponents (nodes : List DNode) (directChildrenOnly : Bool)
    (globalId : Int) :
    Except DiscoveryError (List WebAssemblyComponentDescriptor × Int) := do
  let componentComments ← resolveComponentComments nodes .webassembly directChildrenOnly
  let (discoveredComponents, globalId') :=
    webAssemblyDescriptorsFromComments componentComments globalId
  .ok (sortByKey (fun d => d.id) discoveredComponents, globalId')

/-- Transport connection state (`@microsoft/signalr`'s `HubConnectionState`,
reduced to what `CircuitManager.ts` distinguishes: connected or not). -/
inductive HubConnectionState where
  | Connected
  | NotConnected
deriving DecidableEq, Repr

/-- A transport connection as `startCircuit` consumes it: its state, and the
session identity string the remote `StartCircuit` call would return (the
empty string standing for a falsy result). -/
structure Connection where
  state : HubConnectionState
  invokeStartCircuitResult : String
deriving DecidableEq, Repr

/-- Errors thrown by `CircuitDescriptor`; one constructor per `throw` site
of CircuitManager.ts. -/
inductive CircuitError where
  | alreadyInitialized (circuitId : String)
  | notInitialized
deriving DecidableEq, Repr

/-- Source class `CircuitDescriptor` (CircuitManager.ts, lines 11-92),
reduced to the fields the modelled operations read.  `circuitId` starts
`undefined` (`none`). -/
structure CircuitDescriptor where
  circuitId : Option String
  components : List ServerComponentDescriptor
  applicationState : String
deriving DecidableEq, Repr

/-- Source `CircuitDescriptor.initialize` (lines 43-49): `if (this.circuitId)`
— a truthy current id fails; otherwise the id is assigned.  (The guard is
JavaScript truthiness, so an empty-string `circuitId` counts as unset.) -/
def CircuitDescriptor.initialize (self : CircuitDescriptor) (circuitId : String) :
    Except CircuitError CircuitDescriptor :=
  if jsTruthyStr self.circuitId then
    .error (.alreadyInitialized (self.circuitId.getD ""))
  else
    .ok { self with circuitId := some circuitId }

/-- Source `CircuitDescriptor.startCircuit` (lines 51-71).  Returns the
boolean result, the descriptor after the call, and the list of remote
methods invoked.  A connection that does not report `Connected` returns
`false` at once: no remote call, no state change.  Otherwise `StartCircuit`
is invoked; a truthy result is passed to `initialize` and the call returns
`true`, a falsy result returns `false`. -/
def CircuitDescriptor.startCircuit (self : CircuitDescriptor) (connection : Connection) :
    Except CircuitError (Bool × CircuitDescriptor × List String) :=
  if connection.state ≠ HubConnectionState.Connected then
    .ok (false, self, [])
  else
    let result := connection.invokeStartCircuitResult
    if result ≠ "" then
      match CircuitDescriptor.initialize self result with
      | .error e => .error e
      | .ok self' => .ok (true, self', ["StartCircuit"])
    else
      .ok (false, self, ["StartCircuit"])

/-- Kind tag of a registered root component descriptor as
`registerComponentDescriptor` (Web.ts) dispatches on it. -/
inductive DescriptorKind where
  | auto
  | server
  | webassembly
deriving DecidableEq, Repr

/-- Module-level mutable state of Web.ts: the boot flag, the per-runtime
start guards, the loaded flag, and — as observable history — how often each
underlying external start was issued and how many descriptors were handed
to the root component manager. -/
structure WebState where
  started : Bool := false
  hasWebAssemblyLoaded : Bool := false
  hasCircuitStarted : Bool := false
  hasStartedLoadingWebAssembly : Bool := false
  isStartingWebAssembly : Bool := false
  startCircuitCalls : Nat := 0
  loadWebAssemblyPlatformCalls : Nat := 0
  startWebAssemblyCalls : Nat := 0
  registeredDescriptors : Nat := 0
  initRuns : Nat := 0
deriving DecidableEq, Repr

/-- Source `startCircuitIfNotStarted` (Web.ts, lines 546-554): guard check,
guard set, then the external `startCircuit` call (counted).  The awaited
continuation (`handleUpdatedDescriptors`) touches no modelled state. -/
def startCircuitIfNotStarted (s : WebState) : WebState :=
  if s.hasCircuitStarted then s
  else { s with
    hasCircuitStarted := true,
    startCircuitCalls := s.startCircuitCalls + 1 }

/-- Source `startLoadingWebAssembly` (Web.ts, lines 557-565): guard check,
guard set, then the external `loadWebAssemblyPlatform` call (counted).  The
awaited continuation sets `hasWebAssemblyLoaded` and is modelled as the
separate event `loadWebAssemblyCompleted`. -/
def startLoadingWebAssembly (s : WebState) : WebState :=
  if s.hasStartedLoadingWebAssembly then s
  else { s with
    hasStartedLoadingWebAssembly := true,
    loadWebAssemblyPlatformCalls := s.loadWebAssemblyPlatformCalls + 1 }

/-- Source `startWebAssemblyIfNotStarted` (Web.ts, lines 568-577): guard
check, guard set, then the external `startWebAssembly` call (counted).  The
awaited continuation sets `hasWebAssemblyLoaded` and is modelled as the
separate event `startWebAssemblyCompleted`. -/
def startWebAssemblyIfNotStarted (s : WebState) : WebState :=
  if s.isStartingWebAssembly then s
  else { s with
    isStartingWebAssembly := true,
    startWebAssemblyCalls := s.startWebAssemblyCalls + 1 }

/-- Source `registerComponentDescriptor` (Web.ts, lines 515-525): hand the
descriptor to the root component manager, then trigger the runtime matching
its kind. -/
def registerComponentDescriptor (kind : DescriptorKind) (s : WebState) : WebState :=
  let s := { s with registeredDescriptors := s.registeredDescriptors + 1 }
  match kind with
  | .auto => startLoadingWebAssembly s
  | .server => startCircuitIfNotStarted s
  | .webassembly => startWebAssemblyIfNotStarted s

/-- Source auto-mode resolver (Web.ts, lines 496-504): once webassembly has
loaded, auto resolves to webassembly, otherwise to server; either branch
triggers the matching runtime through its guard. -/
def autoModeResolve (s : WebState) : DescriptorKind × WebState :=
  if s.hasWebAssemblyLoaded then (.webassembly, startWebAssemblyIfNotStarted s)
  else (.server, startCircuitIfNotStarted s)

/-- Synchronous steps the Web.ts event loop interleaves: a descriptor
registration, an auto-mode resolution, and the two await-continuations that
mark webassembly as loaded. -/
inductive WebEvent where
  | register (kind : DescriptorKind)
  | autoResolve
  | loadWebAssemblyCompleted
  | startWebAssemblyCompleted
deriving DecidableEq, Repr

/-- One event against the module state. -/
def stepWeb (s : WebState) : WebEvent → WebState
  | .register kind => registerComponentDescriptor kind s
  | .autoResolve => (autoModeResolve s).2
  | .loadWebAssemblyCompleted => { s with hasWebAssemblyLoaded := true }
  | .startWebAssemblyCompleted => { s with hasWebAssemblyLoaded := true }

/-- A sequence of events from the module's initial state. -/
def runWeb (events : List WebEvent) : WebState :=
  events.foldl stepWeb {}

/-- Source `boot` (Web.ts, lines 477-513): a second call throws
`'Blazor has already started.'`; the first call sets the flag and runs the
one-time initialization (handler attachment and
`registerAllComponentDescriptors(document)`, counted by `initRuns`). -/
def boot (s : WebState) : Except String WebState :=
  if s.started then
    .error "Blazor has already started."
  else
    .ok { s with started := true, initRuns := s.initRuns + 1 }

/-- Comparison of an element against the head of a list, `True` for the
empty list: the step relation behind `sortedByKey`. -/
def keyLeHead {α : Type} (key : α → Int) (a : α) : List α → Prop
  | [] => True
  | b :: _ => key a ≤ key b

theorem sortedByKey_cons {α : Type} (key : α → Int) (a : α) (l : List α) :
    sortedByKey key (a :: l) = true ↔ keyLeHead key a l ∧ sortedByKey key l = true := by
  cases l with
  | nil => simp [sortedByKey, keyLeHead]
  | cons b l2 => simp [sortedByKey, keyLeHead]

theorem insertByKey_sorted {α : Type} (key : α → Int) (a : α) :
    ∀ l, sortedByKey key l = true → sortedByKey key (insertByKey key a l) = true := by
  intro l
  induction l with
  | nil => intro _; simp [insertByKey, sortedByKey]
  | cons b l ih =>
      intro h
      rw [sortedByKey_cons] at h
      simp only [insertByKey]
      by_cases hab : key a ≤ key b
      · simp only [if_pos hab]
        rw [sortedByKey_cons]
        refine ⟨hab, ?_⟩
        rw [sortedByKey_cons]
        exact h
      · simp only [if_neg hab]
        rw [sortedByKey_cons]
        refine ⟨?_, ih h.2⟩
        cases l with
        | nil => simp [insertByKey, keyLeHead]; omega
        | cons c l2 =>
            simp only [insertByKey]
            by_cases hac : key a ≤ key c
            · simp only [if_pos hac, keyLeHead]; omega
            · simp only [if_neg hac, keyLeHead]
              exact h.1

theorem sortByKey_sorted {α : Type} (key : α → Int) :
    ∀ l, sortedByKey key (sortByKey key l) = true := by
  intro l
  induction l with
  | nil => simp [sortByKey, sortedByKey]
  | cons a l ih => exact insertByKey_sorted key a _ ih

theorem insertByKey_perm {α : Type} (key : α → Int) (a : α) :
    ∀ l, List.Perm (insertByKey key a l) (a :: l) := by
  intro l
  induction l with
  | nil => simp [insertByKey]
  | cons b l ih =>
      simp only [insertByKey]
      by_cases hab : key a ≤ key b
      · simp [hab]
      · simp only [if_neg hab]
        exact List.Perm.trans (List.Perm.cons b ih) (List.Perm.swap a b l)

theorem sortByKey_perm {α : Type} (key : α → Int) :
    ∀ l, List.Perm (sortByKey key l) l := by
  intro l
  induction l with
  | nil => simp [sortByKey]
  | cons a l ih =>
      simp only [sortByKey]
      exact List.Perm.trans (insertByKey_perm key a _) (List.Perm.cons a ih)

theorem blazorStateCommentMatch_ne_empty (content : CommentContent) (v : String)
    (h : blazorStateCommentMatch content = some v) : v ≠ "" := by
  cases content with
  | marker payload => simp [blazorStateCommentMatch] at h
  | other => simp [blazorStateCommentMatch] at h
  | state s =>
      simp only [blazorStateCommentMatch] at h
      split at h
      · rename_i hcond
        injection h with h
        subst h
        simp only [Bool.and_eq_true, decide_eq_true_eq] at hcond
        exact hcond.1
      · cases h

theorem jsTruthyStr_stateMatch (content : CommentContent) :
    jsTruthyStr (blazorStateCommentMatch content) = (blazorStateCommentMatch content).isSome := by
  cases hm : blazorStateCommentMatch content with
  | none => rfl
  | some v =>
      have hv := blazorStateCommentMatch_ne_empty content v hm
      simp [jsTruthyStr, hv]

mutual

theorem statePayloads_ne_empty (n : DNode) : ∀ v ∈ statePayloads n, v ≠ "" := by
  match n with
  | .comment content =>
      intro v hv
      simp only [statePayloads] at hv
      cases hm : blazorStateCommentMatch content with
      | none => rw [hm] at hv; simp at hv
      | some w =>
          rw [hm] at hv
          simp only [List.mem_singleton] at hv
          rw [hv]
          exact blazorStateCommentMatch_ne_empty content w hm
  | .text =>
      intro v hv
      simp [statePayloads] at hv
  | .element children =>
      intro v hv
      simp only [statePayloads] at hv
      exact statePayloadsList_ne_empty children v hv

theorem statePayloadsList_ne_empty (cs : List DNode) : ∀ v ∈ statePayloadsList cs, v ≠ "" := by
  match cs with
  | [] =>
      intro v hv
      simp [statePayloadsList] at hv
  | c :: rest =>
      intro v hv
      simp only [statePayloadsList, List.mem_append] at hv
      cases hv with
      | inl h => exact statePayloads_ne_empty c v h
      | inr h => exact statePayloadsList_ne_empty rest v h

end

mutual

theorem removeFirstState_no_match (n : DNode) (h : statePayloads n = []) :
    removeFirstState n = some n := by
  match n with
  | .comment content =>
      simp only [statePayloads] at h
      simp only [removeFirstState]
      cases hm : blazorStateCommentMatch content with
      | none => simp
      | some v => rw [hm] at h; cases h
  | .text => simp [removeFirstState]
  | .element children =>
      simp only [statePayloads] at h
      simp only [removeFirstState]
      rw [removeFirstStateList_no_match children h]

theorem removeFirstStateList_no_match (cs : List DNode) (h : statePayloadsList cs = []) :
    removeFirstStateList cs = cs := by
  match cs with
  | [] => simp [removeFirstStateList]
  | c :: rest =>
      simp only [statePayloadsList, List.append_eq_nil] at h
      simp only [removeFirstStateList]
      rw [if_neg (by simp [h.1])]
      rw [removeFirstStateList_no_match rest h.2]

end

mutual

theorem discoverPersistedState_eq (n : DNode) :
    discoverPersistedState n = ((statePayloads n).head?, removeFirstState n) := by
  match n with
  | .comment content =>
      simp only [discoverPersistedState, statePayloads, removeFirstState]
      cases hm : blazorStateCommentMatch content with
      | none => simp [hm, jsTruthyStr]
      | some v =>
          have hv := blazorStateCommentMatch_ne_empty content v hm
          simp [hm, jsTruthyStr, hv]
  | .text => simp [discoverPersistedState, statePayloads, removeFirstState]
  | .element children =>
      simp only [discoverPersistedState, statePayloads, removeFirstState]
      by_cases hc : children.isEmpty
      · have hnil : children = [] := by simpa [List.isEmpty_iff] using hc
        subst hnil
        simp [statePayloadsList, removeFirstStateList]
      · rw [if_neg hc]
        rw [discoverPersistedStateList_eq children]

theorem discoverPersistedStateList_eq (cs : List DNode) :
    discoverPersistedStateList cs = ((statePayloadsList cs).head?, removeFirstStateList cs) := by
  match cs with
  | [] => simp [discoverPersistedStateList, statePayloadsList, removeFirstStateList]
  | candidate :: rest =>
      simp only [discoverPersistedStateList]
      rw [discoverPersistedState_eq candidate]
      cases hp : statePayloads candidate with
      | nil =>
          have hr := removeFirstState_no_match candidate hp
          rw [discoverPersistedStateList_eq rest]
          simp [hp, hr, jsTruthyStr, statePayloadsList, removeFirstStateList]
      | cons v vs =>
          have hv : v ≠ "" := statePayloads_ne_empty candidate v (by rw [hp]; simp)
          simp [hp, jsTruthyStr, hv, statePayloadsList, removeFirstStateList]

end

theorem getComponentEndComment_skips_nonmarkers (prerenderedId : String) :
    ∀ (pre tail : List DNode), (∀ n ∈ pre, isMarkerComment n = false) →
      getComponentEndComment prerenderedId (pre ++ tail) =
        getComponentEndComment prerenderedId tail := by
  intro pre
  induction pre with
  | nil => intro tail _; simp
  | cons n pre ih =>
      intro tail h
      have hn : isMarkerComment n = false := h n (by simp)
      have hrest : ∀ m ∈ pre, isMarkerComment m = false := fun m hm => h m (by simp [hm])
      cases n with
      | comment content =>
          cases content with
          | marker p => simp [isMarkerComment] at hn
          | state s =>
              simp only [List.cons_append, getComponentEndComment]
              exact ih tail hrest
          | other =>
              simp only [List.cons_append, getComponentEndComment]
              exact ih tail hrest
      | text =>
          simp only [List.cons_append, getComponentEndComment]
          exact ih tail hrest
      | element cs =>
          simp only [List.cons_append, getComponentEndComment]
          exact ih tail hrest

theorem getComponentEndComment_exhausted (prerenderedId : String)
    (rest : List DNode) (h : ∀ n ∈ rest, isMarkerComment n = false) :
    getComponentEndComment prerenderedId rest = .ok (none, []) := by
  have hskip := getComponentEndComment_skips_nonmarkers prerenderedId rest [] h
  rw [List.append_nil] at hskip
  rw [hskip]
  rfl

/-- Invariant of the Web.ts module state: each underlying start was issued
exactly as often as its guard flag says — never while the guard was set. -/
def WebInv (s : WebState) : Prop :=
  s.loadWebAssemblyPlatformCalls = (if s.hasStartedLoadingWebAssembly then 1 else 0) ∧
  s.startWebAssemblyCalls = (if s.isStartingWebAssembly then 1 else 0) ∧
  s.startCircuitCalls = (if s.hasCircuitStarted then 1 else 0)

theorem startCircuitIfNotStarted_inv (s : WebState) (h : WebInv s) :
    WebInv (startCircuitIfNotStarted s) := by
  obtain ⟨h1, h2, h3⟩ := h
  rw [startCircuitIfNotStarted]
  split
  · exact ⟨h1, h2, h3⟩
  · rename_i hc
    simp only [Bool.not_eq_true] at hc
    rw [hc] at h3
    simp at h3
    exact ⟨h1, h2, by simp [h3]⟩

theorem startLoadingWebAssembly_inv (s : WebState) (h : WebInv s) :
    WebInv (startLoadingWebAssembly s) := by
  obtain ⟨h1, h2, h3⟩ := h
  rw [startLoadingWebAssembly]
  split
  · exact ⟨h1, h2, h3⟩
  · rename_i hc
    simp only [Bool.not_eq_true] at hc
    rw [hc] at h1
    simp at h1
    exact ⟨by simp [h1], h2, h3⟩

theorem startWebAssemblyIfNotStarted_inv (s : WebState) (h : WebInv s) :
    WebInv (startWebAssemblyIfNotStarted s) := by
  obtain ⟨h1, h2, h3⟩ := h
  rw [startWebAssemblyIfNotStarted]
  split
  · exact ⟨h1, h2, h3⟩
  · rename_i hc
    simp only [Bool.not_eq_true] at hc
    rw [hc] at h2
    simp at h2
    exact ⟨h1, by simp [h2], h3⟩

theorem stepWeb_inv (s : WebState) (e : WebEvent) (h : WebInv s) : WebInv (stepWeb s e) := by
  cases e with
  | register kind =>
      have hreg : WebInv { s with registeredDescriptors := s.registeredDescriptors + 1 } := h
      cases kind with
      | auto => exact startLoadingWebAssembly_inv _ hreg
      | server => exact startCircuitIfNotStarted_inv _ hreg
      | webassembly => exact startWebAssemblyIfNotStarted_inv _ hreg
  | autoResolve =>
      rw [stepWeb, autoModeResolve]
      split
      · exact startWebAssemblyIfNotStarted_inv _ h
      · exact startCircuitIfNotStarted_inv _ h
  | loadWebAssemblyCompleted => exact h
  | startWebAssemblyCompleted => exact h

theorem foldl_stepWeb_inv (events : List WebEvent) :
    ∀ s : WebState, WebInv s → WebInv (events.foldl stepWeb s) := by
  induction events with
  | nil => intro s h; exact h
  | cons e events ih =>
      intro s h
      exact ih (stepWeb s e) (stepWeb_inv s e h)

theorem runWeb_inv (events : List WebEvent) : WebInv (runWeb events) := by
  apply foldl_stepWeb_inv
  exact ⟨rfl, rfl, rfl⟩

theorem stepWeb_mono_load (s : WebState) (e : WebEvent)
    (h : s.hasStartedLoadingWebAssembly = true) :
    (stepWeb s e).hasStartedLoadingWebAssembly = true := by
  cases e with
  | register kind =>
      cases kind with
      | auto =>
          rw [stepWeb, registerComponentDescriptor, startLoadingWebAssembly]
          split <;> simp [h]
      | server =>
          rw [stepWeb, registerComponentDescriptor, startCircuitIfNotStarted]
          split <;> simp [h]
      | webassembly =>
          rw [stepWeb, registerComponentDescriptor, startWebAssemblyIfNotStarted]
          split <;> simp [h]
  | autoResolve =>
      rw [stepWeb, autoModeResolve]
      split
      · rw [startWebAssemblyIfNotStarted]; split <;> simp [h]
      · rw [startCircuitIfNotStarted]; split <;> simp [h]
  | loadWebAssemblyCompleted => exact h
  | startWebAssemblyCompleted => exact h

theorem stepWeb_mono_startWasm (s : WebState) (e : WebEvent)
    (h : s.isStartingWebAssembly = true) :
    (stepWeb s e).isStartingWebAssembly = true := by
  cases e with
  | register kind =>
      cases kind with
      | auto =>
          rw [stepWeb, registerComponentDescriptor, startLoadingWebAssembly]
          split <;> simp [h]
      | server =>
          rw [stepWeb, registerComponentDescriptor, startCircuitIfNotStarted]
          split <;> simp [h]
      | webassembly =>
          rw [stepWeb, registerComponentDescriptor, startWebAssemblyIfNotStarted]
          split <;> simp [h]
  | autoResolve =>
      rw [stepWeb, autoModeResolve]
      split
      · rw [startWebAssemblyIfNotStarted]; split <;> simp [h]
      · rw [startCircuitIfNotStarted]; split <;> simp [h]
  | loadWebAssemblyCompleted => exact h
  | startWebAssemblyCompleted => exact h

theorem foldl_stepWeb_mono_load (events : List WebEvent) :
    ∀ s : WebState, s.hasStartedLoadingWebAssembly = true →
      (events.foldl stepWeb s).hasStartedLoadingWebAssembly = true := by
  induction events with
  | nil => intro s h; exact h
  | cons e events ih => intro s h; exact ih _ (stepWeb_mono_load s e h)

theorem foldl_stepWeb_mono_startWasm (events : List WebEvent) :
    ∀ s : WebState, s.isStartingWebAssembly = true →
      (events.foldl stepWeb s).isStartingWebAssembly = true := by
  induction events with
  | nil => intro s h; exact h
  | cons e events ih => intro s h; exact ih _ (stepWeb_mono_startWasm s e h)

theorem foldl_stepWeb_register_auto (events : List WebEvent) :
    ∀ s : WebState, WebEvent.register .auto ∈ events →
      (events.foldl stepWeb s).hasStartedLoadingWebAssembly = true := by
  induction events with
  | nil => intro s h; cases h
  | cons e events ih =>
      intro s h
      rw [List.foldl_cons]
      rcases List.mem_cons.mp h with he | he
      · subst he
        apply foldl_stepWeb_mono_load
        show (startLoadingWebAssembly _).hasStartedLoadingWebAssembly = true
        rw [startLoadingWebAssembly]
        split <;> simp_all
      · exact ih _ he

theorem foldl_stepWeb_register_webassembly (events : List WebEvent) :
    ∀ s : WebState, WebEvent.register .webassembly ∈ events →
      (events.foldl stepWeb s).isStartingWebAssembly = true := by
  induction events with
  | nil => intro s h; cases h
  | cons e events ih =>
      intro s h
      rw [List.foldl_cons]
      rcases List.mem_cons.mp h with he | he
      · subst he
        apply foldl_stepWeb_mono_startWasm
        show (startWebAssemblyIfNotStarted _).isStartingWebAssembly = true
        rw [startWebAssemblyIfNotStarted]
        split <;> simp_all
      · exact ih _ he

theorem discoverServerComponents_ok (nodes : List DNode) (directChildrenOnly : Bool)
    (ds : List ServerComponentDescriptor)
    (h : discoverServerComponents nodes directChildrenOnly = .ok ds) :
    ∃ cs, resolveComponentComments nodes .server directChildrenOnly = .ok cs ∧
      ds = sortByKey (fun d => d.sequence) (serverDescriptorsFromComments cs) := by
  rw [discoverServerComponents] at h
  cases hres : resolveComponentComments nodes .server directChildrenOnly with
  | error e => rw [hres] at h; cases h
  | ok cs =>
      rw [hres] at h
      refine ⟨cs, rfl, ?_⟩
      injection h with h
      exact h.symm

theorem discoverWebAssemblyComponents_ok (nodes : List DNode) (directChildrenOnly : Bool)
    (globalId : Int) (ws : List WebAssemblyComponentDescriptor) (globalId' : Int)
    (h : discoverWebAssemblyComponents nodes directChildrenOnly globalId = .ok (ws, globalId')) :
    ∃ cs, resolveComponentComments nodes .webassembly directChildrenOnly = .ok cs ∧
      ws = sortByKey (fun d => d.id) (webAssemblyDescriptorsFromComments cs globalId).1 := by
  rw [discoverWebAssemblyComponents] at h
  cases hres : resolveComponentComments nodes .webassembly directChildrenOnly with
  | error e => rw [hres] at h; cases h
  | ok cs =>
      rw [hres] at h
      refine ⟨cs, rfl, ?_⟩
      injection h with h
      exact (congrArg Prod.fst h).symm

/-- Sample server descriptor for concrete instances. -/
def sampleServerDescriptor : ServerComponentDescriptor :=
  { start := DNode.text, endComment := none, sequence := 0, descriptor := "d" }

/-- Sample webassembly descriptor whose `endComment` field was set by a
collaborator (the field is public). -/
def sampleWasm1 : WebAssemblyComponentDescriptor :=
  { typeName := "T1", assembly := "A1", parameterDefinitions := none,
    parameterValues := none, id := 1, start := DNode.text,
    endComment := some (DNode.comment .other) }

/-- Sample incoming webassembly descriptor of the same identity as
`sampleWasm1` but different payload. -/
def sampleWasm2 : WebAssemblyComponentDescriptor :=
  { typeName := "T1", assembly := "A1", parameterDefinitions := some ⟨"defs"⟩,
    parameterValues := some ⟨"vals"⟩, id := 2, start := DNode.text,
    endComment := none }

/-- Sample fresh circuit descriptor. -/
def ceCircuit : CircuitDescriptor :=
  { circuitId := none, components := [], applicationState := "" }

/-- Sample marker nodes: two server markers out of sequence order, then a
webassembly marker. -/
def wNode1 : DNode :=
  .comment (.marker { type := some "server", sequence := some 7, descriptor := some "B" })

def wNode2 : DNode :=
  .comment (.marker { type := some "server", sequence := some 3, descriptor := some "A" })

def wNode3 : DNode :=
  .comment (.marker { type := some "webassembly", assembly := some "Asm", typeName := some "T1" })

def wNodes : List DNode := [wNode1, wNode2, wNode3]

/-- Server descriptors discovered in `wNodes`, in sorted order. -/
def wServerDs : List ServerComponentDescriptor :=
  [{ start := wNode2, endComment := none, sequence := 3, descriptor := "A" },
   { start := wNode1, endComment := none, sequence := 7, descriptor := "B" }]

/-- Webassembly descriptors discovered in `wNodes` with the id counter at 5. -/
def wWasmDs : List WebAssemblyComponentDescriptor :=
  [{ typeName := "T1", assembly := "Asm", parameterDefinitions := none,
     parameterValues := none, id := 5, start := wNode3, endComment := none }]

/-- C1 counterexample: merging two webassembly descriptors of identical type,
`assembly` and `typeName` succeeds but does not replace `end` on the existing
descriptor — the source line `this.end = other.end;` is commented out — so
the claim that merge replaces `end` on local-execution descriptors fails:
the merged result keeps the existing `endComment` although the incoming one
differs. -/
theorem wasm_merge_keeps_end_counterexample :
    WebAssemblyComponentDescriptor.merge sampleWasm1 (.webassembly sampleWasm2) =
      .ok { sampleWasm1 with
        parameterDefinitions := some ⟨"defs"⟩,
        parameterValues := some ⟨"vals"⟩,
        id := 2 } ∧
    sampleWasm1.endComment = some (DNode.comment .other) ∧
    sampleWasm2.endComment = none := by
  refine ⟨?_, rfl, rfl⟩
  decide

/-- C1 (amended): `merge(existing, incoming)` replaces the ordering key and
the type-specific payload fields on `existing` and never replaces `start`;
`end` is adopted from the incoming descriptor for server descriptors only —
for webassembly (local-execution) descriptors the `end` assignment is
commented out in the source, so `endComment` is left untouched by merge
(and is `none` on any constructor-built descriptor anyway). -/
theorem merge_updates_payload_and_key_never_start
    (s o : ServerComponentDescriptor) (w w2 : WebAssemblyComponentDescriptor)
    (hT : w.typeName = w2.typeName) (hA : w.assembly = w2.assembly) :
    ServerComponentDescriptor.merge s (.server o) =
      .ok { s with
        endComment := o.endComment,
        sequence := o.sequence,
        descriptor := o.descriptor } ∧
    WebAssemblyComponentDescriptor.merge w (.webassembly w2) =
      .ok { w with
        parameterDefinitions := w2.parameterDefinitions,
        parameterValues := w2.parameterValues,
        id := w2.id } := by
  constructor
  · rfl
  · simp [WebAssemblyComponentDescriptor.merge, hT, hA]

theorem merge_updates_payload_and_key_never_start_witness :
    ServerComponentDescriptor.merge sampleServerDescriptor (.server sampleServerDescriptor) =
      .ok { sampleServerDescriptor with
        endComment := sampleServerDescriptor.endComment,
        sequence := sampleServerDescriptor.sequence,
        descriptor := sampleServerDescriptor.descriptor } ∧
    WebAssemblyComponentDescriptor.merge sampleWasm1 (.webassembly sampleWasm2) =
      .ok { sampleWasm1 with
        parameterDefinitions := sampleWasm2.parameterDefinitions,
        parameterValues := sampleWasm2.parameterValues,
        id := sampleWasm2.id } :=
  merge_updates_payload_and_key_never_start sampleServerDescriptor sampleServerDescriptor
    sampleWasm1 sampleWasm2 (by decide) (by decide)

/-- C2 counterexample: scanning for the end marker paired with id `a`, the
next sibling marker comment carries prerenderId `b`; the scan throws the
mismatch error instead of ignoring that comment and continuing to the
matching end marker right behind it. -/
theorem end_scan_mismatched_id_errors_counterexample :
    getComponentEndComment "a"
        [DNode.comment (.marker { prerenderId := some "b" }),
         DNode.comment (.marker { prerenderId := some "a" })] =
      .error (.endCommentPrerenderIdMismatch "a" "b") := by
  decide

/-- C2 (amended): during the paired-end search, siblings that are not marker
comments are skipped and scanning continues; the first sibling marker
comment decides the search — a payload that is exactly the start marker's
prerenderId ends it successfully, while a differing prerenderId makes the
scan fail with the mismatch error rather than being ignored. -/
theorem end_scan_mismatch_fails_nonmarkers_skipped (pid otherId : String)
    (pre rest : List DNode) (hpre : ∀ n ∈ pre, isMarkerComment n = false)
    (hpid : pid ≠ "") (hne : otherId ≠ pid) (hne2 : otherId ≠ "") :
    getComponentEndComment pid
        (pre ++ DNode.comment (.marker { prerenderId := some pid }) :: rest) =
      .ok (some (DNode.comment (.marker { prerenderId := some pid })), rest) ∧
    getComponentEndComment pid
        (pre ++ DNode.comment (.marker { prerenderId := some otherId }) :: rest) =
      .error (.endCommentPrerenderIdMismatch pid otherId) := by
  constructor
  · rw [getComponentEndComment_skips_nonmarkers pid pre
        (DNode.comment (.marker { prerenderId := some pid }) :: rest) hpre]
    simp [getComponentEndComment, validateEndComponentPayload, CommentPayload.numKeys, hpid]
  · rw [getComponentEndComment_skips_nonmarkers pid pre
        (DNode.comment (.marker { prerenderId := some otherId }) :: rest) hpre]
    simp [getComponentEndComment, validateEndComponentPayload, CommentPayload.numKeys,
      hne, hne2]

theorem end_scan_mismatch_fails_nonmarkers_skipped_witness :
    getComponentEndComment "a"
        [DNode.text, DNode.comment .other,
         DNode.comment (.marker { prerenderId := some "a" })] =
      .ok (some (DNode.comment (.marker { prerenderId := some "a" })), []) ∧
    getComponentEndComment "a"
        [DNode.text, DNode.comment .other,
         DNode.comment (.marker { prerenderId := some "b" })] =
      .error (.endCommentPrerenderIdMismatch "a" "b") :=
  end_scan_mismatch_fails_nonmarkers_skipped "a" "b"
    [DNode.text, DNode.comment .other] [] (by decide) (by decide) (by decide) (by decide)

/-- C3 counterexample: `initialize` with the empty string succeeds but leaves
`circuitId` falsy under the source's truthiness guard, so a second
`initialize` call also succeeds — the session identity is reassigned, against
the claim that any second call fails. -/
theorem initialize_twice_empty_id_counterexample :
    CircuitDescriptor.initialize ceCircuit "" =
      .ok { ceCircuit with circuitId := some "" } ∧
    CircuitDescriptor.initialize { ceCircuit with circuitId := some "" } "session2" =
      .ok { ceCircuit with circuitId := some "session2" } := by
  constructor <;> decide

/-- C3 (amended): `initialize(id)` succeeds exactly when the current
`circuitId` is unset or empty (the source's guard is JavaScript truthiness,
under which an empty-string id counts as unset) and then sets `circuitId` to
`id`; after an initialization with a non-empty id every further call fails
fatally, so a non-empty session identity is never reassigned. -/
theorem circuit_initialize_succeeds_once_amended (d : CircuitDescriptor)
    (id1 id2 : String) (h : jsTruthyStr d.circuitId = false) (h1 : id1 ≠ "") :
    CircuitDescriptor.initialize d id1 = .ok { d with circuitId := some id1 } ∧
    CircuitDescriptor.initialize { d with circuitId := some id1 } id2 =
      .error (.alreadyInitialized id1) := by
  constructor
  · rw [ CircuitDescriptor.initialize, if_neg (by simp [h])]
  · rw [ CircuitDescriptor.initialize]
    rw [if_pos (by simp [jsTruthyStr, h1])]
    rfl

theorem circuit_initialize_succeeds_once_amended_witness :
    CircuitDescriptor.initialize ceCircuit "session1" =
      .ok { ceCircuit with circuitId := some "session1" } ∧
    CircuitDescriptor.initialize { ceCircuit with circuitId := some "session1" } "session2" =
      .error (.alreadyInitialized "session1") :=
  circuit_initialize_succeeds_once_amended ceCircuit "session1" "session2"
    (by decide) (by decide)

/-- C4: `discoverPersistedState` is a depth-first single-match search: it
returns the first persisted-state payload of the tree in depth-first order
(`none` when no comment in the tree matches, after the whole tree was
visited), and the returned tree is exactly the input with that first
matching comment removed — in particular, a tree without a match is
returned unchanged. -/
theorem discoverPersistedState_single_match_removal (n : DNode) :
    discoverPersistedState n = ((statePayloads n).head?, removeFirstState n) ∧
    (statePayloads n = [] → removeFirstState n = some n) :=
  ⟨discoverPersistedState_eq n, fun h => removeFirstState_no_match n h⟩

theorem discoverPersistedState_single_match_removal_witness :
    discoverPersistedState
        (DNode.element [DNode.text, DNode.comment (.state "QUJD"),
          DNode.comment (.state "RA")]) =
      (some "QUJD", some (DNode.element [DNode.text, DNode.comment (.state "RA")])) ∧
    statePayloads (DNode.element [DNode.text]) = [] ∧
    removeFirstState (DNode.element [DNode.text]) = some (DNode.element [DNode.text]) := by
  refine ⟨?_, by decide,
    (discoverPersistedState_single_match_removal (DNode.element [DNode.text])).2 (by decide)⟩
  rw [(discoverPersistedState_single_match_removal _).1]
  decide

/-- C5: for every node list and either target kind, discovery returns the
matching descriptors sorted by the documented ordering key — `sequence` for
server descriptors, creation-order `id` for webassembly descriptors —
whatever the order of the markers in the DOM; the output is a permutation of
the descriptors built from the resolved marker comments. -/
theorem discovery_returns_sorted_descriptors (nodes : List DNode)
    (directChildrenOnly : Bool) (globalId : Int)
    (ds : List ServerComponentDescriptor) (ws : List WebAssemblyComponentDescriptor)
    (globalId' : Int)
    (hs : discoverServerComponents nodes directChildrenOnly = .ok ds)
    (hw : discoverWebAssemblyComponents nodes directChildrenOnly globalId =
      .ok (ws, globalId')) :
    sortedByKey (fun d => d.sequence) ds = true ∧
    sortedByKey (fun d => d.id) ws = true ∧
    (∃ cs, resolveComponentComments nodes .server directChildrenOnly = .ok cs ∧
      List.Perm ds (serverDescriptorsFromComments cs)) ∧
    (∃ cs, resolveComponentComments nodes .webassembly directChildrenOnly = .ok cs ∧
      List.Perm ws (webAssemblyDescriptorsFromComments cs globalId).1) := by
  obtain ⟨cs, hres, hds⟩ := discoverServerComponents_ok nodes directChildrenOnly ds hs
  obtain ⟨cw, hresw, hws⟩ :=
    discoverWebAssemblyComponents_ok nodes directChildrenOnly globalId ws globalId' hw
  subst hds
  subst hws
  exact ⟨sortByKey_sorted _ _, sortByKey_sorted _ _,
    ⟨cs, hres, sortByKey_perm _ _⟩, ⟨cw, hresw, sortByKey_perm _ _⟩⟩

theorem discovery_returns_sorted_descriptors_witness :
    sortedByKey (fun d : ServerComponentDescriptor => d.sequence) wServerDs = true ∧
    sortedByKey (fun d : WebAssemblyComponentDescriptor => d.id) wWasmDs = true :=
  let h := discovery_returns_sorted_descriptors wNodes false 5 wServerDs wWasmDs 6
    (by decide) (by decide)
  ⟨h.1, h.2.1⟩

/-- C6: `startCircuit` on a connection that does not report the connected
state returns `false` with no side effects: the descriptor (in particular
its `circuitId`) is unchanged and no remote method is invoked. -/
theorem startCircuit_disconnected_returns_false_no_effects (self : CircuitDescriptor)
    (connection : Connection) (h : connection.state ≠ HubConnectionState.Connected) :
    CircuitDescriptor.startCircuit self connection = .ok (false, self, []) := by
  rw [CircuitDescriptor.startCircuit, if_pos h]

theorem startCircuit_disconnected_returns_false_no_effects_witness :
    CircuitDescriptor.startCircuit ceCircuit
        { state := .NotConnected, invokeStartCircuitResult := "c1" } =
      .ok (false, ceCircuit, []) :=
  startCircuit_disconnected_returns_false_no_effects ceCircuit
    { state := .NotConnected, invokeStartCircuitResult := "c1" } (by decide)

/-- C7: merge fails — rather than resolving the conflict by picking one
side — whenever the two descriptors have different types, and, for
webassembly descriptors, whenever `typeName` or `assembly` differ.  (In the
pure embedding an error carries no updated descriptor, so the existing one
is unchanged.) -/
theorem merge_incompatible_fails (s : ServerComponentDescriptor)
    (w w2 : WebAssemblyComponentDescriptor)
    (h : w.typeName ≠ w2.typeName ∨ w.assembly ≠ w2.assembly) :
    ServerComponentDescriptor.merge s (.webassembly w) =
      .error (.differingTypes "server" "webassembly") ∧
    WebAssemblyComponentDescriptor.merge w (.server s) =
      .error (.differingTypes "webassembly" "server") ∧
    ∃ e : MergeError, WebAssemblyComponentDescriptor.merge w (.webassembly w2) =
      .error e := by
  refine ⟨rfl, rfl, ?_⟩
  by_cases hT : w.typeName = w2.typeName
  · have hA : w.assembly ≠ w2.assembly := by
      rcases h with h | h
      · exact absurd hT h
      · exact h
    exact ⟨.differingAssembly w.assembly w2.assembly,
      by simp [WebAssemblyComponentDescriptor.merge, hT, hA]⟩
  · exact ⟨.differingTypeName w.typeName w2.typeName,
      by simp [WebAssemblyComponentDescriptor.merge, hT]⟩

theorem merge_incompatible_fails_witness :
    ServerComponentDescriptor.merge sampleServerDescriptor (.webassembly sampleWasm1) =
      .error (.differingTypes "server" "webassembly") ∧
    ∃ e : MergeError,
      WebAssemblyComponentDescriptor.merge sampleWasm1
        (.webassembly { sampleWasm2 with typeName := "T9" }) = .error e :=
  let h := merge_incompatible_fails sampleServerDescriptor sampleWasm1
    { sampleWasm2 with typeName := "T9" } (Or.inl (by decide))
  ⟨h.1, h.2.2⟩

/-- C8: a start marker whose payload carries a truthy prerenderId, scanned
against a remaining sibling list that holds no marker comment at all, fails
with the unterminated-marker error instead of yielding a descriptor record —
for the server and the webassembly builder alike.  (`getComponentComment`
then replaces the error with its malformed-comment error when surfacing
it.) -/
theorem unterminated_marker_discovery_fails (payload : CommentPayload)
    (start : DNode) (rest : List DNode)
    (hp : jsTruthyStr payload.prerenderId = true)
    (hrest : ∀ n ∈ rest, isMarkerComment n = false) :
    createServerComponentComment payload start rest = .error .unterminatedMarker ∧
    createWebAssemblyComponentComment payload start rest = .error .unterminatedMarker := by
  have hend := getComponentEndComment_exhausted (payload.prerenderId.getD "") rest hrest
  constructor
  · rw [createServerComponentComment, if_pos hp, hend]
    show createServerComponentCommentBody payload start none [] = .error .unterminatedMarker
    rw [createServerComponentCommentBody, if_pos ⟨hp, rfl⟩]
  · rw [createWebAssemblyComponentComment, if_pos hp, hend]
    show createWebAssemblyComponentCommentBody payload start none [] = .error .unterminatedMarker
    rw [createWebAssemblyComponentCommentBody, if_pos ⟨hp, rfl⟩]

theorem unterminated_marker_discovery_fails_witness :
    createServerComponentComment
        { type := some "server", sequence := some 0, descriptor := some "d",
          prerenderId := some "X" }
        (DNode.comment .other) [DNode.text] =
      .error .unterminatedMarker ∧
    createWebAssemblyComponentComment
        { type := some "webassembly", assembly := some "A", typeName := some "T",
          prerenderId := some "X" }
        (DNode.comment .other) [DNode.text] =
      .error .unterminatedMarker :=
  ⟨(unterminated_marker_discovery_fails _ _ _ (by decide) (by decide)).1,
   (unterminated_marker_discovery_fails _ _ _ (by decide) (by decide)).2⟩

/-- C9: over any interleaving of descriptor registrations, auto-mode
resolutions and load completions, each per-runtime guard lets the underlying
start through at most once; registering at least one `auto` descriptor makes
the payload load happen exactly once, and at least one `webassembly`
descriptor makes the webassembly start happen exactly once — duplicates
collapse into the single in-flight or completed start. -/
theorem runtime_start_triggered_at_most_once (events : List WebEvent) :
    (runWeb events).loadWebAssemblyPlatformCalls ≤ 1 ∧
    (runWeb events).startWebAssemblyCalls ≤ 1 ∧
    (WebEvent.register .auto ∈ events →
      (runWeb events).loadWebAssemblyPlatformCalls = 1) ∧
    (WebEvent.register .webassembly ∈ events →
      (runWeb events).startWebAssemblyCalls = 1) := by
  obtain ⟨h1, h2, h3⟩ := runWeb_inv events
  refine ⟨?_, ?_, ?_, ?_⟩
  · rw [h1]; split <;> omega
  · rw [h2]; split <;> omega
  · intro hm
    have hf : (runWeb events).hasStartedLoadingWebAssembly = true :=
      foldl_stepWeb_register_auto events {} hm
    rw [h1, hf]
    rfl
  · intro hm
    have hf : (runWeb events).isStartingWebAssembly = true :=
      foldl_stepWeb_register_webassembly events {} hm
    rw [h2, hf]
    rfl

theorem runtime_start_triggered_at_most_once_witness :
    (runWeb [WebEvent.register .auto, WebEvent.register .auto,
      WebEvent.register .webassembly, WebEvent.register .webassembly,
      WebEvent.register .server]).loadWebAssemblyPlatformCalls = 1 ∧
    (runWeb [WebEvent.register .auto, WebEvent.register .auto,
      WebEvent.register .webassembly, WebEvent.register .webassembly,
      WebEvent.register .server]).startWebAssemblyCalls = 1 :=
  let h := runtime_start_triggered_at_most_once
    [WebEvent.register .auto, WebEvent.register .auto,
     WebEvent.register .webassembly, WebEvent.register .webassembly,
     WebEvent.register .server]
  ⟨h.2.2.1 (by decide), h.2.2.2 (by decide)⟩

/-- C10: the public boot entry point starts at most once: with the started
flag unset, `boot` sets it and runs the one-time initialization; with the
flag set, `boot` throws `Blazor has already started.` and re-runs nothing. -/
theorem boot_starts_at_most_once (s : WebState) :
    (s.started = false →
      boot s = .ok { s with started := true, initRuns := s.initRuns + 1 }) ∧
    (s.started = true → boot s = .error "Blazor has already started.") := by
  constructor <;> intro h <;> simp [boot, h]

theorem boot_starts_at_most_once_witness :
    boot {} = .ok { started := true, initRuns := 1 } ∧
    boot { started := true, initRuns := 1 } = .error "Blazor has already started." := by
  constructor
  · have h := (boot_starts_at_most_once {}).1 rfl
    simpa using h
  · exact (boot_starts_at_most_once { started := true, initRuns := 1 }).2 rfl

theorem except_bind_ok {ε α β : Type} (a : α) (f : α → Except ε β) :
    (Except.ok a : Except ε α) >>= f = f a := rfl

theorem except_bind_error {ε α β : Type} (e : ε) (f : α → Except ε β) :
    (Except.error e : Except ε α) >>= f = .error e := rfl

theorem DNode.nodeSize_pos (n : DNode) : 1 ≤ DNode.nodeSize n := by
  cases n <;> simp [DNode.nodeSize]

theorem DNode.listSize_pos (cs : List DNode) : 1 ≤ DNode.listSize cs := by
  cases cs with
  | nil => simp [DNode.listSize]
  | cons n rest => simp [DNode.listSize]; omega

theorem DNode.childNodes_listSize (n : DNode) :
    DNode.listSize (DNode.childNodes n) ≤ DNode.nodeSize n := by
  cases n <;> simp [DNode.childNodes, DNode.nodeSize, DNode.listSize]

theorem getComponentEndComment_size (prerenderedId : String) :
    ∀ (rest : List DNode) (e : Option DNode) (rest' : List DNode),
      getComponentEndComment prerenderedId rest = .ok (e, rest') →
      DNode.listSize rest' ≤ DNode.listSize rest := by
  intro rest
  induction rest with
  | nil =>
      intro e rest' h
      simp only [getComponentEndComment] at h
      injection h with h
      injection h with h1 h2
      subst h2
      exact le_refl _
  | cons node rest ih =>
      intro e rest' h
      have hskip : getComponentEndComment prerenderedId rest = .ok (e, rest') →
          DNode.listSize rest' ≤ DNode.listSize (node :: rest) := by
        intro h'
        have := ih e rest' h'
        simp only [DNode.listSize]
        omega
      cases node with
      | comment content =>
          cases content with
          | marker payload =>
              simp only [getComponentEndComment] at h
              cases hv : validateEndComponentPayload payload prerenderedId with
              | error er => rw [hv] at h; cases h
              | ok u =>
                  rw [hv] at h
                  injection h with h
                  injection h with h1 h2
                  subst h2
                  simp only [DNode.listSize]
                  omega
          | state s => exact hskip (by simpa [getComponentEndComment] using h)
          | other => exact hskip (by simpa [getComponentEndComment] using h)
      | text => exact hskip (by simpa [getComponentEndComment] using h)
      | element cs => exact hskip (by simpa [getComponentEndComment] using h)


theorem createServerComponentCommentBody_rest (payload : CommentPayload) (start : DNode)
    (endComment : Option DNode) (rest1 : List DNode)
    (r : Option ComponentCommentResult) (rest' : List DNode)
    (h : createServerComponentCommentBody payload start endComment rest1 = .ok (r, rest')) :
    rest' = rest1 := by
  rw [createServerComponentCommentBody] at h
  split at h
  · cases h
  · split at h
    · injection h with h
      injection h with h1 h2
      exact h2.symm
    · split at h
      · cases h
      · cases hseq : payload.sequence with
        | none => rw [hseq] at h; cases h
        | some sq =>
            rw [hseq] at h
            injection h with h
            injection h with h1 h2
            exact h2.symm

theorem createWebAssemblyComponentCommentBody_rest (payload : CommentPayload) (start : DNode)
    (endComment : Option DNode) (rest1 : List DNode)
    (r : Option ComponentCommentResult) (rest' : List DNode)
    (h : createWebAssemblyComponentCommentBody payload start endComment rest1 = .ok (r, rest')) :
    rest' = rest1 := by
  rw [createWebAssemblyComponentCommentBody] at h
  split at h
  · cases h
  · split at h
    · injection h with h
      injection h with h1 h2
      exact h2.symm
    · split at h
      · cases h
      · split at h
        · cases h
        · injection h with h
          injection h with h1 h2
          exact h2.symm

theorem createServerComponentComment_size (payload : CommentPayload) (start : DNode)
    (rest : List DNode) (r : Option ComponentCommentResult) (rest' : List DNode)
    (h : createServerComponentComment payload start rest = .ok (r, rest')) :
    DNode.listSize rest' ≤ DNode.listSize rest := by
  rw [createServerComponentComment] at h
  split at h
  · cases hscan : getComponentEndComment (payload.prerenderId.getD "") rest with
    | error e => rw [hscan] at h; cases h
    | ok p =>
        obtain ⟨endComment, rest1⟩ := p
        rw [hscan] at h
        have h' : createServerComponentCommentBody payload start endComment rest1 =
            .ok (r, rest') := h
        rw [createServerComponentCommentBody_rest payload start endComment rest1 r rest' h']
        exact getComponentEndComment_size _ rest endComment rest1 hscan
  · rw [createServerComponentCommentBody_rest payload start none rest r rest' h]

theorem createWebAssemblyComponentComment_size (payload : CommentPayload) (start : DNode)
    (rest : List DNode) (r : Option ComponentCommentResult) (rest' : List DNode)
    (h : createWebAssemblyComponentComment payload start rest = .ok (r, rest')) :
    DNode.listSize rest' ≤ DNode.listSize rest := by
  rw [createWebAssemblyComponentComment] at h
  split at h
  · cases hscan : getComponentEndComment (payload.prerenderId.getD "") rest with
    | error e => rw [hscan] at h; cases h
    | ok p =>
        obtain ⟨endComment, rest1⟩ := p
        rw [hscan] at h
        have h' : createWebAssemblyComponentCommentBody payload start endComment rest1 =
            .ok (r, rest') := h
        rw [createWebAssemblyComponentCommentBody_rest payload start endComment rest1 r rest' h']
        exact getComponentEndComment_size _ rest endComment rest1 hscan
  · rw [createWebAssemblyComponentCommentBody_rest payload start none rest r rest' h]

theorem getComponentComment_error_malformed (t : MarkerType) (n : DNode)
    (rest : List DNode) (e : DiscoveryError)
    (h : getComponentComment t n rest = .error e) : e = .malformedComment := by
  cases n with
  | comment content =>
      cases content with
      | marker payload =>
          simp only [getComponentComment] at h
          split at h
          · cases h
          · injection h with h
            exact h.symm
      | state s => simp only [getComponentComment] at h; cases h
      | other => simp only [getComponentComment] at h; cases h
  | text => simp only [getComponentComment] at h; cases h
  | element cs => simp only [getComponentComment] at h; cases h

theorem getComponentComment_size (t : MarkerType) (n : DNode) (rest : List DNode)
    (r : Option ComponentCommentResult) (rest' : List DNode)
    (h : getComponentComment t n rest = .ok (r, rest')) :
    DNode.listSize rest' ≤ DNode.listSize rest := by
  have hplain : Except.ok (none, rest) =
      (Except.ok (r, rest') : Except DiscoveryError (Option ComponentCommentResult × List DNode)) →
      DNode.listSize rest' ≤ DNode.listSize rest := by
    intro h'
    injection h' with h'
    injection h' with h1 h2
    subst h2
    exact le_refl _
  cases n with
  | comment content =>
      cases content with
      | marker payload =>
          simp only [getComponentComment] at h
          split at h
          · rename_i val heq
            injection h with h
            subst h
            cases hparse : parseCommentPayload payload with
            | error e2 => rw [hparse, except_bind_error] at heq; cases heq
            | ok cc =>
                rw [hparse, except_bind_ok] at heq
                cases t with
                | webassembly =>
                    exact createWebAssemblyComponentComment_size cc _ rest r rest' heq
                | server =>
                    exact createServerComponentComment_size cc _ rest r rest' heq
          · cases h
      | state s => exact hplain (by simpa [getComponentComment] using h)
      | other => exact hplain (by simpa [getComponentComment] using h)
  | text => exact hplain (by simpa [getComponentComment] using h)
  | element cs => exact hplain (by simpa [getComponentComment] using h)

theorem resolveComponentCommentsAux_no_fuelExhausted (t : MarkerType) :
    ∀ (fuel : Nat) (dco : Bool) (nodes : List DNode),
      DNode.listSize nodes ≤ fuel →
      resolveComponentCommentsAux t dco fuel nodes ≠ .error .fuelExhausted := by
  intro fuel
  induction fuel with
  | zero =>
      intro dco nodes hle
      have := DNode.listSize_pos nodes
      omega
  | succ fuel ih =>
      intro dco nodes hle
      cases nodes with
      | nil => simp [resolveComponentCommentsAux]
      | cons node rest =>
          simp only [resolveComponentCommentsAux]
          cases hgc : getComponentComment t node rest with
          | error e =>
              have he := getComponentComment_error_malformed t node rest e hgc
              subst he
              simp [hgc, except_bind_error]
          | ok p =>
              obtain ⟨componentComment, rest1⟩ := p
              have hsz := getComponentComment_size t node rest componentComment rest1 hgc
              have hn1 := DNode.nodeSize_pos node
              have hr1 := DNode.listSize_pos rest
              have hle' : DNode.listSize rest1 ≤ fuel := by
                simp only [DNode.listSize] at hle
                omega
              cases componentComment with
              | some c =>
                  cases hrec : resolveComponentCommentsAux t dco fuel rest1 with
                  | error e2 =>
                      have hne : e2 ≠ .fuelExhausted := by
                        intro hcontra
                        subst hcontra
                        exact ih dco rest1 hle' hrec
                      simp [hgc, except_bind_ok, hrec, except_bind_error]
                      exact hne
                  | ok tail => simp [hgc, except_bind_ok, hrec]
              | none =>
                  cases hdco : dco with
                  | true =>
                      have hgoal := ih true rest1 hle'
                      simpa [hgc, except_bind_ok] using hgoal
                  | false =>
                      cases hhc : DNode.hasChildNodes node with
                      | false =>
                          have hgoal := ih false rest1 hle'
                          simpa [hgc, except_bind_ok, hhc] using hgoal
                      | true =>
                          have hchild : DNode.listSize (DNode.childNodes node) ≤ fuel := by
                            have := DNode.childNodes_listSize node
                            simp only [DNode.listSize] at hle
                            omega
                          cases hrec1 : resolveComponentCommentsAux t false fuel
                              (DNode.childNodes node) with
                          | error e2 =>
                              have hne : e2 ≠ .fuelExhausted := by
                                intro hcontra
                                subst hcontra
                                exact ih false (DNode.childNodes node) hchild hrec1
                              simp [hgc, except_bind_ok, hhc, hrec1, except_bind_error]
                              exact hne
                          | ok childResults =>
                              cases hrec2 : resolveComponentCommentsAux t false fuel rest1 with
                              | error e2 =>
                                  have hne : e2 ≠ .fuelExhausted := by
                                    intro hcontra
                                    subst hcontra
                                    exact ih false rest1 hle' hrec2
                                  simp [hgc, except_bind_ok, hhc, hrec1, hrec2,
                                    except_bind_error]
                                  exact hne
                              | ok tail =>
                                  simp [hgc, except_bind_ok, hhc, hrec1, hrec2]

/-- The fuel `resolveComponentComments` hands to its worker is sufficient:
the embedding never reports the artificial fuel error, so the worker's
recursion terminates exactly as the source's loop does. -/
theorem resolveComponentComments_fuel_sufficient (nodes : List DNode)
    (t : MarkerType) (dco : Bool) :
    resolveComponentComments nodes t dco ≠ .error .fuelExhausted :=
  resolveComponentCommentsAux_no_fuelExhausted t (DNode.listSize nodes) dco nodes
    (le_refl _)
